import Mathlib

/-!
# Verification of the patient_stories persistence layer and ingestion CLI

Shallow embedding of `lib/database.ts` (src/unnamed/part_000) and
`bin/youtube-fetcher.ts`.  The relational store is modelled as association
lists keyed by `video_id` (the primary key, respectively the UNIQUE column of
`transcripts`), with the SQL `INSERT ... ON CONFLICT ... DO UPDATE` statements
modelled as key-based upserts.  JavaScript falsiness (`x || null`, `x ? y : z`,
truthiness tests on option strings) is modelled explicitly where the source
relies on it.
-/

/-- The `VideoMetadata` interface of `lib/database.ts` (lines 217-225).
In the metadata shape, absence of `publishedDate` is encoded as the empty
string and absence of `durationInSeconds` as zero (these are the API-level
defaults that `getVideoMetadata` re-applies on read). -/
structure VideoMetadata where
  id : String
  title : String
  description : String
  publishedDate : String
  durationInSeconds : Int
  viewCount : Int
  url : String
deriving Repr, DecidableEq

/-- A row of the `videos` table created by the schema-setup statements of
`lib/database.ts` (lines 34-43): `published_date` and `duration_seconds` are
nullable columns, the rest are written non-null by `storeVideo`. -/
structure VideoRow where
  title : String
  description : String
  published_date : Option String
  duration_seconds : Option Int
  url : String
deriving Repr, DecidableEq

/-- A row of the `transcripts` table (lines 45-53); the SERIAL surrogate key
is not observable through any exported operation and is omitted. -/
structure TranscriptRow where
  full_transcript : String
  language : String
deriving Repr, DecidableEq

/-- Modelled from the spec: the `AnalysisResult` shape of `lib/ollama` is not
part of the provided sources; per spec §3 it carries demographic attributes, a
symptom list, medical-history fields, a diagnostic-challenge list and a
free-text key opinion, each field either absent or a fully-formed structured
value.  Structured (JSON) list values are modelled as lists of strings. -/
structure AnalysisResult where
  video_type : Option String
  name : Option String
  age : Option String
  sex : Option String
  location : Option String
  symptoms : Option (List String)
  medicalHistoryOfPatient : Option (List String)
  familyMedicalHistory : Option (List String)
  challengesFacedDuringDiagnosis : Option (List String)
  key_opinion : Option String
deriving Repr, DecidableEq

/-- A row of the `analysis` table (lines 55-70): every non-key column is
nullable; the JSONB columns hold serialized JSON text. -/
structure AnalysisRow where
  video_type : Option String
  name : Option String
  age : Option String
  sex : Option String
  location : Option String
  symptoms : Option String
  medical_history_of_patient : Option String
  family_medical_history : Option String
  challenges_faced_during_diagnosis : Option String
  key_opinion : Option String
deriving Repr, DecidableEq

/-- The relational store: the three tables of the schema, each keyed by
`video_id`.  `videos` is keyed by its primary key; `transcripts` by its
UNIQUE `video_id` column; `analysis` by its primary key. -/
structure DBState where
  videos : List (String × VideoRow)
  transcripts : List (String × TranscriptRow)
  analysis : List (String × AnalysisRow)
deriving Repr, DecidableEq

/-- The store right after schema creation: all three tables empty. -/
def emptyDB : DBState := ⟨[], [], []⟩

/-- Models `SELECT ... WHERE video_id = $1` on a table keyed by `video_id`. -/
def lookupRow {α : Type} (rows : List (String × α)) (k : String) : Option α :=
  match rows with
  | [] => none
  | p :: rest => if p.1 = k then some p.2 else lookupRow rest k

/-- Models `INSERT ... ON CONFLICT (video_id) DO UPDATE`: replace the row with the
conflicting key if one exists, otherwise append a fresh row. -/
def upsertRow {α : Type} (rows : List (String × α)) (k : String) (v : α) :
    List (String × α) :=
  match rows with
  | [] => [(k, v)]
  | p :: rest => if p.1 = k then (k, v) :: rest else p :: upsertRow rest k v

/-- Number of rows of a table carrying the key `k`
(`SELECT COUNT(*) ... WHERE video_id = $1`). -/
def countKey {α : Type} (rows : List (String × α)) (k : String) : Nat :=
  match rows with
  | [] => 0
  | p :: rest => (if p.1 = k then 1 else 0) + countKey rest k

/-- The key column of a table. -/
def keysOf {α : Type} (rows : List (String × α)) : List String :=
  rows.map Prod.fst

/-- JavaScript `s || null` on a string: the empty string is falsy. -/
def jsStringOrNull (s : String) : Option String :=
  if s = "" then none else some s

/-- JavaScript `n || null` on a number: zero is falsy. -/
def jsIntOrNull (n : Int) : Option Int :=
  if n = 0 then none else some n

/-- Models `JSON.stringify` on a list of strings (the structured values carried by
the JSONB parameters of `storeAnalysis`). -/
def jsonStringify (xs : List String) : String :=
  "[" ++ String.intercalate "," (xs.map (fun s => "\x22" ++ s ++ "\x22")) ++ "]"

/-- The parameter vector that `storeVideo` (lines 88-95) binds for its upsert:
`publishedDate || null`, `durationInSeconds || null`, and the canonical URL
string built from the record's id; `title` and `description` pass through. -/
def videoRowOf (m : VideoMetadata) : VideoRow :=
  { title := m.title
    description := m.description
    published_date := jsStringOrNull m.publishedDate
    duration_seconds := jsIntOrNull m.durationInSeconds
    url := "https://youtube.com/watch?v=" ++ m.id }

/-- The parameter vector that `storeAnalysis` (lines 186-198) binds: each
JSONB field is serialized only when present (`x ? JSON.stringify(x) : null`),
the scalar fields pass through (absent scalars reach the driver as null). -/
def analysisRowOf (a : AnalysisResult) : AnalysisRow :=
  { video_type := a.video_type
    name := a.name
    age := a.age
    sex := a.sex
    location := a.location
    symptoms := a.symptoms.map jsonStringify
    medical_history_of_patient := a.medicalHistoryOfPatient.map jsonStringify
    family_medical_history := a.familyMedicalHistory.map jsonStringify
    challenges_faced_during_diagnosis :=
      a.challengesFacedDuringDiagnosis.map jsonStringify
    key_opinion := a.key_opinion }

/-- Models `storeVideo` (lines 79-101): upsert into `videos` keyed on the record id. -/
def storeVideoDB (m : VideoMetadata) (s : DBState) : DBState :=
  { s with videos := upsertRow s.videos m.id (videoRowOf m) }

/-- A sequence of `storeVideo` calls, in order. -/
def storeVideos (ms : List VideoMetadata) (s : DBState) : DBState :=
  ms.foldl (fun st m => storeVideoDB m st) s

/-- Whether the `videos` table holds a row for `videoId`; this is the referent
of the FOREIGN KEY constraints declared on `transcripts` and `analysis`. -/
def hasVideo (s : DBState) (videoId : String) : Bool :=
  s.videos.any (fun p => p.1 == videoId)

/-- A failed store surfaces the underlying constraint violation. -/
inductive StoreError where
  | foreignKeyViolation : String → StoreError
deriving Repr, DecidableEq

/-- Models `storeTranscript` (lines 103-118): upsert into `transcripts` keyed on
`video_id`; the FOREIGN KEY to `videos` rejects ids with no video row, and the
error propagates to the caller with no change to the store. -/
def storeTranscriptDB (videoId transcript language : String) (s : DBState) :
    Except StoreError DBState :=
  if hasVideo s videoId then
    .ok { s with transcripts :=
            upsertRow s.transcripts videoId ⟨transcript, language⟩ }
  else
    .error (.foreignKeyViolation videoId)

/-- Models `storeAnalysis` (lines 163-204): upsert into `analysis` keyed on
`video_id`, guarded by the same FOREIGN KEY to `videos`. -/
def storeAnalysisDB (videoId : String) (a : AnalysisResult) (s : DBState) :
    Except StoreError DBState :=
  if hasVideo s videoId then
    .ok { s with analysis := upsertRow s.analysis videoId (analysisRowOf a) }
  else
    .error (.foreignKeyViolation videoId)

/-- Models `getVideoMetadata` (lines 136-161): point lookup by id; a missing row
becomes `none`; a found row is re-shaped with `publishedDate || ""`,
`durationInSeconds || 0`, and `viewCount` fixed to zero. -/
def getVideoMetadataDB (s : DBState) (videoId : String) : Option VideoMetadata :=
  match lookupRow s.videos videoId with
  | none => none
  | some row =>
      some { id := videoId
             title := row.title
             description := row.description
             publishedDate := row.published_date.getD ""
             durationInSeconds := row.duration_seconds.getD 0
             viewCount := 0
             url := row.url }

/-- Models `getAllVideoIds` (lines 206-215): `SELECT video_id FROM videos`. -/
def getAllVideoIdsDB (s : DBState) : List String :=
  keysOf s.videos

/-! ## Connection retry (`connectWithRetry`, lines 9-28)

The loop is modelled over an oracle `outcome : Nat → Bool` giving the result
of the attempt made while the counter holds a given value (`true`: the pool is
created and `SELECT 1` succeeds).  The model returns whether a pool was
obtained, how many attempts ran, and the total milliseconds slept: the code
sleeps `retryInterval` only after a failed attempt that still leaves budget
(line 24), so each attempt after the first is preceded by one sleep. -/

structure ConnectResult where
  connected : Bool
  attempts : Nat
  delayMs : Nat
deriving Repr, DecidableEq

/-- One unfolding of the `while (attempt < retries)` loop, with `remaining`
the value of `retries - attempt`.  On failure the counter is incremented and
the loop either throws (budget exhausted, line 23) or sleeps and retries. -/
def connectLoop (outcome : Nat → Bool) (interval : Nat) :
    Nat → Nat → ConnectResult
  | _, 0 => ⟨false, 0, 0⟩
  | attempt, remaining + 1 =>
    if outcome attempt then ⟨true, 1, 0⟩
    else if remaining = 0 then ⟨false, 1, 0⟩
    else
      let r := connectLoop outcome interval (attempt + 1) remaining
      ⟨r.connected, r.attempts + 1, r.delayMs + interval⟩

/-- Models `connectWithRetry(retries = 5, retryInterval = 2000)`. -/
def connectWithRetry (outcome : Nat → Bool) : ConnectResult :=
  connectLoop outcome 2000 0 5

/-! ## The ingestion CLI (`bin/youtube-fetcher.ts`)

The argument loop (lines 20-37), the usage guard (lines 39-43), the fetch
phase (lines 49-63), the empty-batch guard (lines 75-78) and the store loop
(lines 81-88) are modelled as a pure function from the argument list, an
environment of external services, and the initial database state to the
observable outcome.  File/stdout output (lines 91-117) has no database or
exit-code effect when the writes succeed and is not modelled further. -/

/-- The `Options` interface (lines 8-14); every field starts `undefined`. -/
structure Options where
  disease : Option String
  maxResults : Option Int
  outputFile : Option String
  videoIdsFile : Option String
  videoId : Option String
deriving Repr, DecidableEq

/-- The options object before the argument loop runs. -/
def emptyOptions : Options := ⟨none, none, none, none, none⟩

/-- Models `parseInt(s, 10)` on the well-formed inputs this model cares about;
`none` stands for `NaN` (which is falsy where the code consumes it). -/
def jsParseInt (s : String) : Option Int :=
  s.toInt?

/-- The argument loop (lines 20-37): a recognized flag consumes the following
argument when one exists; anything else is skipped. -/
def parseArgs : List String → Options → Options
  | [], o => o
  | [_], o => o
  | a :: b :: rest, o =>
    if a = "--disease" then parseArgs rest { o with disease := some b }
    else if a = "--max-results" then
      parseArgs rest { o with maxResults := jsParseInt b }
    else if a = "--output-file" then parseArgs rest { o with outputFile := some b }
    else if a = "--video-ids-file" then
      parseArgs rest { o with videoIdsFile := some b }
    else if a = "--video-id" then parseArgs rest { o with videoId := some b }
    else parseArgs (b :: rest) o

/-- JavaScript truthiness of an optional string: `undefined` and the empty
string are falsy. -/
def truthy : Option String → Bool
  | none => false
  | some s => s != ""

/-- JavaScript `x || d` on an optional number (`undefined`, `NaN` and zero
are falsy). -/
def jsOrInt : Option Int → Int → Int
  | none, d => d
  | some n, d => if n = 0 then d else n

/-- The external collaborators and failure modes the CLI run depends on:
the single-video fetch, the keyword search, and whether the underlying
store of a given record's id fails with a query error. -/
structure FetchEnv where
  getVideoDetails : String → Option VideoMetadata
  searchDiseaseVideos : String → Int → List VideoMetadata
  storeFails : String → Bool

/-- Observable outcome of one CLI run: the exit code, whether the database
was ever set up, the single-video fetches and keyword searches issued (in
order), and the final database state. -/
structure MainResult where
  exitCode : Nat
  dbStarted : Bool
  detailFetchCalls : List String
  searchCalls : List (String × Int)
  db : DBState
deriving Repr, DecidableEq

/-- The store phase (lines 81-88): each record is upserted in order; a
failing store is logged and skipped, and the loop continues. -/
def storeLoop (env : FetchEnv) (vs : List VideoMetadata) (s : DBState) : DBState :=
  vs.foldl (fun st v => if env.storeFails v.id then st else storeVideoDB v st) s

/-- Models `main` (lines 16-122).  The usage guard fires before any database or
fetch activity; the single-video branch is taken exactly when
`options.videoId` is truthy; an empty batch exits 1; otherwise the store
loop runs and the process finishes with exit code 0. -/
def mainRun (env : FetchEnv) (args : List String) (s0 : DBState) : MainResult :=
  let o := parseArgs args emptyOptions
  if !truthy o.disease && !truthy o.videoId then
    ⟨1, false, [], [], s0⟩
  else if truthy o.videoId then
    let vid := o.videoId.getD ""
    match env.getVideoDetails vid with
    | some v => ⟨0, true, [vid], [], storeLoop env [v] s0⟩
    | none => ⟨1, true, [vid], [], s0⟩
  else
    let d := o.disease.getD ""
    let n := jsOrInt o.maxResults 1000
    let vs := env.searchDiseaseVideos d n
    if vs.isEmpty then ⟨1, true, [], [(d, n)], s0⟩
    else ⟨0, true, [], [(d, n)], storeLoop env vs s0⟩

/-! ## Concrete sample data used by witnesses and counterexamples -/

def wmA : VideoMetadata :=
  ⟨"vidA", "first title", "first description", "2023-01-01", 100, 1,
   "client-url-A"⟩

def wmB : VideoMetadata :=
  ⟨"vidA", "second title", "", "", 0, 2, "client-url-B"⟩

def wv1 : VideoMetadata :=
  ⟨"v1", "t1", "d1", "2024-01-01", 10, 0, "u1"⟩

def wv2 : VideoMetadata :=
  ⟨"v2", "t2", "d2", "2024-01-02", 20, 0, "u2"⟩

def wv3 : VideoMetadata :=
  ⟨"v3", "t3", "d3", "", 0, 0, "u3"⟩

def wAnalysis : AnalysisResult :=
  ⟨some "patient story", some "Alex", none, none, some "Pune",
   some ["fatigue", "rash"], none, some [], none,
   some "early diagnosis matters"⟩

/-- An environment whose keyword search finds one video and whose detail
fetch finds nothing; no store ever fails. -/
def cexEnv : FetchEnv :=
  { getVideoDetails := fun _ => none
    searchDiseaseVideos := fun _ _ => [wmA]
    storeFails := fun _ => false }

/-- An environment with three searchable videos whose middle record fails to
store, and a detail fetch that knows the id "vidA". -/
def batchEnv : FetchEnv :=
  { getVideoDetails := fun v => if v = "vidA" then some wmA else none
    searchDiseaseVideos := fun _ _ => [wv1, wv2, wv3]
    storeFails := fun i => i == "v2" }

/-! ## Association-list lemmas -/

theorem lookupRow_upsertRow_self {α : Type} (rows : List (String × α))
    (k : String) (v : α) : lookupRow (upsertRow rows k v) k = some v := by
  induction rows with
  | nil => simp [upsertRow, lookupRow]
  | cons p rest ih =>
    by_cases h : p.1 = k
    · simp [upsertRow, h, lookupRow]
    · simp [upsertRow, h, lookupRow, ih]

theorem keysOf_cons {α : Type} (p : String × α) (rest : List (String × α)) :
    keysOf (p :: rest) = p.1 :: keysOf rest := rfl

theorem lookupRow_upsertRow_ne {α : Type} (rows : List (String × α))
    (k k' : String) (v : α) (h : k' ≠ k) :
    lookupRow (upsertRow rows k v) k' = lookupRow rows k' := by
  have hkk : ¬ (k = k') := fun hc => h hc.symm
  induction rows with
  | nil => simp [upsertRow, lookupRow, hkk]
  | cons p rest ih =>
    by_cases hp : p.1 = k
    · have hp' : ¬ (p.1 = k') := fun hc => hkk (hp.symm.trans hc)
      simp only [upsertRow, if_pos hp, lookupRow, if_neg hkk, if_neg hp']
    · simp only [upsertRow, if_neg hp, lookupRow, ih]

theorem mem_keysOf_upsertRow {α : Type} (rows : List (String × α))
    (k k' : String) (v : α) :
    k' ∈ keysOf (upsertRow rows k v) ↔ k' = k ∨ k' ∈ keysOf rows := by
  induction rows with
  | nil => simp [upsertRow, keysOf_cons, keysOf]
  | cons p rest ih =>
    by_cases hp : p.1 = k
    · rw [show upsertRow (p :: rest) k v = (k, v) :: rest by simp [upsertRow, hp]]
      simp only [keysOf_cons, List.mem_cons, hp]
      tauto
    · simp only [upsertRow, if_neg hp, keysOf_cons, List.mem_cons, ih]
      tauto

theorem keysOf_upsertRow_nodup {α : Type} (rows : List (String × α))
    (k : String) (v : α) (h : (keysOf rows).Nodup) :
    (keysOf (upsertRow rows k v)).Nodup := by
  induction rows with
  | nil => simp [upsertRow, keysOf_cons, keysOf]
  | cons p rest ih =>
    rw [keysOf_cons, List.nodup_cons] at h
    by_cases hp : p.1 = k
    · simp only [upsertRow, if_pos hp, keysOf_cons, List.nodup_cons]
      exact ⟨hp ▸ h.1, h.2⟩
    · simp only [upsertRow, if_neg hp, keysOf_cons, List.nodup_cons]
      refine ⟨fun hc => ?_, ih h.2⟩
      rcases (mem_keysOf_upsertRow rest k p.1 v).mp hc with h1 | h1
      · exact hp h1
      · exact h.1 h1

theorem countKey_eq_zero_of_not_mem {α : Type} (rows : List (String × α))
    (k : String) (h : k ∉ keysOf rows) : countKey rows k = 0 := by
  induction rows with
  | nil => rfl
  | cons p rest ih =>
    rw [keysOf_cons, List.mem_cons] at h
    push_neg at h
    have h1 : ¬ (p.1 = k) := fun hc => h.1 hc.symm
    simp [countKey, h1, ih h.2]

theorem countKey_upsertRow {α : Type} (rows : List (String × α))
    (k : String) (v : α) (h : (keysOf rows).Nodup) :
    countKey (upsertRow rows k v) k = 1 := by
  induction rows with
  | nil => simp [upsertRow, countKey]
  | cons p rest ih =>
    rw [keysOf_cons, List.nodup_cons] at h
    by_cases hp : p.1 = k
    · have h0 : countKey rest k = 0 :=
        countKey_eq_zero_of_not_mem rest k (hp ▸ h.1)
      simp [upsertRow, hp, countKey, h0]
    · simp [upsertRow, hp, countKey, ih h.2]

theorem lookupRow_eq_none_iff {α : Type} (rows : List (String × α))
    (k : String) : lookupRow rows k = none ↔ k ∉ keysOf rows := by
  induction rows with
  | nil => simp [lookupRow, keysOf]
  | cons p rest ih =>
    by_cases hp : p.1 = k
    · simp [lookupRow, hp, keysOf_cons]
    · have hk : ¬ (k = p.1) := fun hc => hp hc.symm
      simp [lookupRow, hp, keysOf_cons, ih, hk]

/-! ## Facts about sequences of `storeVideo` calls -/

theorem keysOf_storeVideos_mem (ms : List VideoMetadata) (s : DBState)
    (k : String) :
    k ∈ keysOf (storeVideos ms s).videos ↔
      k ∈ ms.map VideoMetadata.id ∨ k ∈ keysOf s.videos := by
  induction ms generalizing s with
  | nil => simp [storeVideos]
  | cons m rest ih =>
    simp only [storeVideos, List.foldl_cons, List.map_cons, List.mem_cons]
    rw [show List.foldl (fun st m => storeVideoDB m st) (storeVideoDB m s) rest =
          storeVideos rest (storeVideoDB m s) from rfl, ih]
    simp only [storeVideoDB, mem_keysOf_upsertRow]
    tauto

theorem keysOf_storeVideos_nodup (ms : List VideoMetadata) (s : DBState)
    (h : (keysOf s.videos).Nodup) :
    (keysOf (storeVideos ms s).videos).Nodup := by
  induction ms generalizing s with
  | nil => simpa [storeVideos] using h
  | cons m rest ih =>
    simp only [storeVideos, List.foldl_cons]
    exact ih (storeVideoDB m s) (keysOf_upsertRow_nodup _ _ _ h)

theorem hasVideo_iff (s : DBState) (k : String) :
    hasVideo s k = true ↔ k ∈ keysOf s.videos := by
  simp only [hasVideo, keysOf, List.any_eq_true, List.mem_map, beq_iff_eq]

/-! ## The retry loop, fully characterized -/

theorem connectLoop_succ_true (o : Nat → Bool) (interval attempt r : Nat)
    (ho : o attempt = true) :
    connectLoop o interval attempt (r + 1) = ⟨true, 1, 0⟩ := by
  simp [connectLoop, ho]

theorem connectLoop_succ_last (o : Nat → Bool) (interval attempt : Nat)
    (ho : o attempt = false) :
    connectLoop o interval attempt 1 = ⟨false, 1, 0⟩ := by
  simp [connectLoop, ho]

theorem connectLoop_succ_step (o : Nat → Bool) (interval attempt r : Nat)
    (ho : o attempt = false) (hr : r ≠ 0) :
    connectLoop o interval attempt (r + 1) =
      ⟨(connectLoop o interval (attempt + 1) r).connected,
       (connectLoop o interval (attempt + 1) r).attempts + 1,
       (connectLoop o interval (attempt + 1) r).delayMs + interval⟩ := by
  simp [connectLoop, ho, hr]

theorem connectLoop_spec (o : Nat → Bool) (interval : Nat)
    (remaining attempt : Nat) :
    (connectLoop o interval attempt remaining).attempts ≤ remaining ∧
    (connectLoop o interval attempt remaining).delayMs =
      interval * ((connectLoop o interval attempt remaining).attempts - 1) ∧
    ((connectLoop o interval attempt remaining).connected = true ↔
      ∃ j, j < remaining ∧ o (attempt + j) = true) ∧
    (0 < remaining → 0 < (connectLoop o interval attempt remaining).attempts) := by
  induction remaining generalizing attempt with
  | zero => simp [connectLoop]
  | succ r ih =>
    by_cases ho : o attempt = true
    · rw [connectLoop_succ_true o interval attempt r ho]
      refine ⟨?_, by simp, ?_, fun _ => ?_⟩
      · show 1 ≤ r + 1
        omega
      · exact iff_of_true rfl ⟨0, Nat.succ_pos r, by simpa using ho⟩
      · show 0 < 1
        omega
    · have ho' : o attempt = false := by simpa using ho
      by_cases hr : r = 0
      · subst hr
        rw [connectLoop_succ_last o interval attempt ho']
        refine ⟨le_refl 1, by simp, ?_, fun _ => Nat.one_pos⟩
        refine iff_of_false (by simp) ?_
        rintro ⟨j, hj, hoj⟩
        have hj0 : j = 0 := Nat.lt_one_iff.mp hj
        subst hj0
        simp only [Nat.add_zero] at hoj
        exact ho hoj
      · have hrec := ih (attempt + 1)
        have ha : 0 < (connectLoop o interval (attempt + 1) r).attempts :=
          hrec.2.2.2 (Nat.pos_of_ne_zero hr)
        rw [connectLoop_succ_step o interval attempt r ho' hr]
        refine ⟨?_, ?_, ?_, fun _ => ?_⟩
        · have := hrec.1
          show (connectLoop o interval (attempt + 1) r).attempts + 1 ≤ r + 1
          omega
        · have hd := hrec.2.1
          show (connectLoop o interval (attempt + 1) r).delayMs + interval =
            interval * ((connectLoop o interval (attempt + 1) r).attempts + 1 - 1)
          calc (connectLoop o interval (attempt + 1) r).delayMs + interval
              = interval * ((connectLoop o interval (attempt + 1) r).attempts - 1)
                  + interval := by rw [hd]
            _ = interval * ((connectLoop o interval (attempt + 1) r).attempts - 1 + 1) :=
                  (Nat.mul_succ _ _).symm
            _ = interval * (connectLoop o interval (attempt + 1) r).attempts := by
                  rw [Nat.sub_add_cancel ha]
            _ = interval * ((connectLoop o interval (attempt + 1) r).attempts + 1 - 1) := by
                  rw [Nat.add_sub_cancel]
        · show (connectLoop o interval (attempt + 1) r).connected = true ↔
            ∃ j, j < r + 1 ∧ o (attempt + j) = true
          rw [hrec.2.2.1]
          constructor
          · rintro ⟨j, hj, hoj⟩
            refine ⟨j + 1, by omega, ?_⟩
            rw [show attempt + (j + 1) = attempt + 1 + j by omega]
            exact hoj
          · rintro ⟨j, hj, hoj⟩
            match j, hj, hoj with
            | 0, hj, hoj => exact absurd (by simpa using hoj) ho
            | j' + 1, hj, hoj =>
              refine ⟨j', by omega, ?_⟩
              rw [show attempt + 1 + j' = attempt + (j' + 1) by omega]
              exact hoj
        · show 0 < (connectLoop o interval (attempt + 1) r).attempts + 1
          omega

/-! ## Argument-loop preservation -/

theorem parseArgs_fields_of_not_mem :
    ∀ (args : List String) (o : Options),
      "--disease" ∉ args → "--video-id" ∉ args →
      (parseArgs args o).disease = o.disease ∧
        (parseArgs args o).videoId = o.videoId
  | [], _, _, _ => ⟨rfl, rfl⟩
  | [_], _, _, _ => ⟨rfl, rfl⟩
  | a :: b :: rest, o, hd, hv => by
    have hd1 : a ≠ "--disease" := by
      rintro rfl; exact hd (List.mem_cons_self _ _)
    have hv1 : a ≠ "--video-id" := by
      rintro rfl; exact hv (List.mem_cons_self _ _)
    have hdr : "--disease" ∉ rest := fun hc =>
      hd (List.mem_cons_of_mem _ (List.mem_cons_of_mem _ hc))
    have hvr : "--video-id" ∉ rest := fun hc =>
      hv (List.mem_cons_of_mem _ (List.mem_cons_of_mem _ hc))
    have hdbr : "--disease" ∉ b :: rest := fun hc => hd (List.mem_cons_of_mem _ hc)
    have hvbr : "--video-id" ∉ b :: rest := fun hc => hv (List.mem_cons_of_mem _ hc)
    by_cases h2 : a = "--max-results"
    · simp only [parseArgs, if_neg hd1, if_pos h2]
      exact parseArgs_fields_of_not_mem rest _ hdr hvr
    · by_cases h3 : a = "--output-file"
      · simp only [parseArgs, if_neg hd1, if_neg h2, if_pos h3]
        exact parseArgs_fields_of_not_mem rest _ hdr hvr
      · by_cases h4 : a = "--video-ids-file"
        · simp only [parseArgs, if_neg hd1, if_neg h2, if_neg h3, if_pos h4]
          exact parseArgs_fields_of_not_mem rest _ hdr hvr
        · simp only [parseArgs, if_neg hd1, if_neg h2, if_neg h3, if_neg h4,
            if_neg hv1]
          exact parseArgs_fields_of_not_mem (b :: rest) o hdbr hvbr

theorem truthy_some_of_ne (s : String) (h : s ≠ "") : truthy (some s) = true := by
  simp [truthy, h]

/-! ## Claims -/

/-- Claim C1: `storeVideo` is an upsert keyed on the video id: for any valid
metadata record, storing twice for the same id (with possibly different field
values) leaves exactly the row written by the second call persisted for every
non-key column, and exactly one `videos` row carries that id. -/
theorem storeVideo_upsert_latest (s : DBState) (m1 m2 : VideoMetadata)
    (hkeys : (keysOf s.videos).Nodup) (hid : m1.id = m2.id) :
    lookupRow (storeVideoDB m2 (storeVideoDB m1 s)).videos m1.id =
      some (videoRowOf m2) ∧
    countKey (storeVideoDB m2 (storeVideoDB m1 s)).videos m1.id = 1 := by
  have hnd : (keysOf (storeVideoDB m1 s).videos).Nodup :=
    keysOf_upsertRow_nodup _ _ _ hkeys
  rw [hid]
  exact ⟨lookupRow_upsertRow_self _ _ _, countKey_upsertRow _ _ _ hnd⟩

/-- Witness for C1: two concrete records sharing the id "vidA". -/
theorem storeVideo_upsert_latest_witness :
    (keysOf emptyDB.videos).Nodup ∧ wmA.id = wmB.id ∧
    (lookupRow (storeVideoDB wmB (storeVideoDB wmA emptyDB)).videos wmA.id =
        some (videoRowOf wmB) ∧
      countKey (storeVideoDB wmB (storeVideoDB wmA emptyDB)).videos wmA.id = 1) :=
  ⟨by decide, by decide,
   storeVideo_upsert_latest emptyDB wmA wmB (by decide) (by decide)⟩

/-- Claim C2: at the storage boundary a nullable field is written as SQL null
exactly when it is absent in the input (absence being the metadata shape's
empty string for `publishedDate` and zero for `durationInSeconds`, and `none`
for the optional analysis fields); fields that are present are written with
their given values, and an absent field is never written as an empty string;
the empty-string / zero defaults are re-applied only by `getVideoMetadata`
when reading back, which reproduces the input shape exactly. -/
theorem storage_null_boundary (m : VideoMetadata) (a : AnalysisResult)
    (s : DBState) :
    (videoRowOf m).title = m.title ∧
    (videoRowOf m).description = m.description ∧
    ((videoRowOf m).published_date = none ↔ m.publishedDate = "") ∧
    (videoRowOf m).published_date.all (fun x => x == m.publishedDate) = true ∧
    (videoRowOf m).published_date.all (fun x => x != "") = true ∧
    ((videoRowOf m).duration_seconds = none ↔ m.durationInSeconds = 0) ∧
    (videoRowOf m).duration_seconds.all (fun x => x == m.durationInSeconds) = true ∧
    (analysisRowOf a).symptoms = Option.map jsonStringify a.symptoms ∧
    (analysisRowOf a).medical_history_of_patient =
      Option.map jsonStringify a.medicalHistoryOfPatient ∧
    (analysisRowOf a).family_medical_history =
      Option.map jsonStringify a.familyMedicalHistory ∧
    (analysisRowOf a).challenges_faced_during_diagnosis =
      Option.map jsonStringify a.challengesFacedDuringDiagnosis ∧
    (analysisRowOf a).video_type = a.video_type ∧
    (analysisRowOf a).name = a.name ∧
    (analysisRowOf a).age = a.age ∧
    (analysisRowOf a).sex = a.sex ∧
    (analysisRowOf a).location = a.location ∧
    (analysisRowOf a).key_opinion = a.key_opinion ∧
    getVideoMetadataDB (storeVideoDB m s) m.id =
      some { id := m.id, title := m.title, description := m.description,
             publishedDate := m.publishedDate,
             durationInSeconds := m.durationInSeconds, viewCount := 0,
             url := "https://youtube.com/watch?v=" ++ m.id } := by
  have hl : lookupRow (storeVideoDB m s).videos m.id = some (videoRowOf m) :=
    lookupRow_upsertRow_self _ _ _
  refine ⟨rfl, rfl, ?_, ?_, ?_, ?_, ?_, rfl, rfl, rfl, rfl, rfl, rfl, rfl,
    rfl, rfl, rfl, ?_⟩
  · by_cases hpd : m.publishedDate = "" <;>
      simp [videoRowOf, jsStringOrNull, hpd]
  · by_cases hpd : m.publishedDate = "" <;>
      simp [videoRowOf, jsStringOrNull, hpd]
  · by_cases hpd : m.publishedDate = "" <;>
      simp [videoRowOf, jsStringOrNull, hpd]
  · by_cases hdu : m.durationInSeconds = 0 <;>
      simp [videoRowOf, jsIntOrNull, hdu]
  · by_cases hdu : m.durationInSeconds = 0 <;>
      simp [videoRowOf, jsIntOrNull, hdu]
  · by_cases hpd : m.publishedDate = "" <;>
      by_cases hdu : m.durationInSeconds = 0 <;>
        simp [getVideoMetadataDB, hl, videoRowOf, jsStringOrNull, jsIntOrNull,
          hpd, hdu]

/-- Claim C3: with three fetched records of which only the middle one fails
to store, the run still exits 0 and the first and third rows are persisted
(the store loop logs the failure and continues). -/
theorem cli_store_failure_tolerant (env : FetchEnv) (d : String)
    (v1 v2 v3 : VideoMetadata) (s0 : DBState) (hd : d ≠ "")
    (hs : env.searchDiseaseVideos d 1000 = [v1, v2, v3])
    (h1 : env.storeFails v1.id = false) (h2 : env.storeFails v2.id = true)
    (h3 : env.storeFails v3.id = false) (h13 : v1.id ≠ v3.id) :
    (mainRun env ["--disease", d] s0).exitCode = 0 ∧
    lookupRow (mainRun env ["--disease", d] s0).db.videos v1.id =
      some (videoRowOf v1) ∧
    lookupRow (mainRun env ["--disease", d] s0).db.videos v3.id =
      some (videoRowOf v3) := by
  have hpa : parseArgs ["--disease", d] emptyOptions =
      { emptyOptions with disease := some d } := rfl
  have hmain : mainRun env ["--disease", d] s0 =
      ⟨0, true, [], [(d, 1000)], storeLoop env [v1, v2, v3] s0⟩ := by
    unfold mainRun
    rw [hpa]
    simp [truthy, hd, emptyOptions, jsOrInt, hs]
  have hdb : storeLoop env [v1, v2, v3] s0 =
      storeVideoDB v3 (storeVideoDB v1 s0) := by
    simp [storeLoop, h1, h2, h3]
  rw [hmain, hdb]
  refine ⟨rfl, ?_, ?_⟩
  · exact (lookupRow_upsertRow_ne _ _ _ _ h13).trans
      (lookupRow_upsertRow_self _ _ _)
  · exact lookupRow_upsertRow_self _ _ _

/-- Witness for C3: a concrete three-record batch whose middle record "v2"
fails to store. -/
theorem cli_store_failure_tolerant_witness :
    ("flu" : String) ≠ "" ∧
    batchEnv.searchDiseaseVideos "flu" 1000 = [wv1, wv2, wv3] ∧
    batchEnv.storeFails wv1.id = false ∧
    batchEnv.storeFails wv2.id = true ∧
    batchEnv.storeFails wv3.id = false ∧
    wv1.id ≠ wv3.id ∧
    ((mainRun batchEnv ["--disease", "flu"] emptyDB).exitCode = 0 ∧
      lookupRow (mainRun batchEnv ["--disease", "flu"] emptyDB).db.videos wv1.id =
        some (videoRowOf wv1) ∧
      lookupRow (mainRun batchEnv ["--disease", "flu"] emptyDB).db.videos wv3.id =
        some (videoRowOf wv3)) :=
  ⟨by decide, rfl, by decide, by decide, by decide, by decide,
   cli_store_failure_tolerant batchEnv "flu" wv1 wv2 wv3 emptyDB (by decide)
     rfl (by decide) (by decide) (by decide) (by decide)⟩

/-- Claim C4: for a video id never passed to `storeVideo`, `storeTranscript`
and `storeAnalysis` fail with a store error (the FOREIGN KEY to `videos` is
violated); the failing call returns no updated state, so the transcripts and
analysis tables are untouched. -/
theorem store_dependent_fk_violation (ms : List VideoMetadata)
    (vid transcript language : String) (a : AnalysisResult)
    (h : vid ∉ ms.map VideoMetadata.id) :
    storeTranscriptDB vid transcript language (storeVideos ms emptyDB) =
      .error (.foreignKeyViolation vid) ∧
    storeAnalysisDB vid a (storeVideos ms emptyDB) =
      .error (.foreignKeyViolation vid) := by
  have hk : vid ∉ keysOf (storeVideos ms emptyDB).videos := by
    rw [keysOf_storeVideos_mem]
    rintro (hc | hc)
    · exact h hc
    · simp [emptyDB, keysOf] at hc
  have hfk : ¬ (hasVideo (storeVideos ms emptyDB) vid = true) := fun hc =>
    hk ((hasVideo_iff _ _).mp hc)
  constructor
  · simp only [storeTranscriptDB, if_neg hfk]
  · simp only [storeAnalysisDB, if_neg hfk]

/-- Witness for C4: the id "ghost" was never stored among `[wmA]`. -/
theorem store_dependent_fk_violation_witness :
    ("ghost" ∉ [wmA].map VideoMetadata.id) ∧
    (storeTranscriptDB "ghost" "a transcript" "en" (storeVideos [wmA] emptyDB) =
        .error (.foreignKeyViolation "ghost") ∧
      storeAnalysisDB "ghost" wAnalysis (storeVideos [wmA] emptyDB) =
        .error (.foreignKeyViolation "ghost")) :=
  ⟨by decide,
   store_dependent_fk_violation [wmA] "ghost" "a transcript" "en" wAnalysis
     (by decide)⟩

/-- Claim C5: `getVideoMetadata` returns the absence marker `none` exactly for
ids never passed to `storeVideo` (never an error), and any record it does
return carries `viewCount = 0`. -/
theorem getVideoMetadata_absence_and_viewCount (ms : List VideoMetadata)
    (vid : String) :
    (getVideoMetadataDB (storeVideos ms emptyDB) vid = none ↔
      vid ∉ ms.map VideoMetadata.id) ∧
    (getVideoMetadataDB (storeVideos ms emptyDB) vid).all
      (fun r => r.viewCount == 0) = true := by
  constructor
  · have hnone : getVideoMetadataDB (storeVideos ms emptyDB) vid = none ↔
        lookupRow (storeVideos ms emptyDB).videos vid = none := by
      cases hlk : lookupRow (storeVideos ms emptyDB).videos vid <;>
        simp [getVideoMetadataDB, hlk]
    rw [hnone, lookupRow_eq_none_iff, keysOf_storeVideos_mem]
    simp [emptyDB, keysOf]
  · cases hlk : lookupRow (storeVideos ms emptyDB).videos vid <;>
      simp [getVideoMetadataDB, hlk, Option.all]

/-- Witness for C5: instantiated at a stored batch and the unknown
id "ghost". -/
theorem getVideoMetadata_absence_and_viewCount_witness :
    (getVideoMetadataDB (storeVideos [wmA, wv1] emptyDB) "ghost" = none ↔
      "ghost" ∉ [wmA, wv1].map VideoMetadata.id) ∧
    (getVideoMetadataDB (storeVideos [wmA, wv1] emptyDB) "ghost").all
      (fun r => r.viewCount == 0) = true :=
  getVideoMetadata_absence_and_viewCount [wmA, wv1] "ghost"

/-- Claim C6: after any sequence of `storeVideo` calls on a fresh store,
`getAllVideoIds` contains every id ever passed and holds no duplicates. -/
theorem getAllVideoIds_complete_nodup (ms : List VideoMetadata) :
    (∀ m ∈ ms, m.id ∈ getAllVideoIdsDB (storeVideos ms emptyDB)) ∧
    (getAllVideoIdsDB (storeVideos ms emptyDB)).Nodup := by
  constructor
  · intro m hm
    show m.id ∈ keysOf (storeVideos ms emptyDB).videos
    rw [keysOf_storeVideos_mem]
    exact Or.inl (List.mem_map_of_mem _ hm)
  · exact keysOf_storeVideos_nodup ms emptyDB (by simp [emptyDB, keysOf])

/-- Witness for C6: a store order that repeats the id "vidA". -/
theorem getAllVideoIds_complete_nodup_witness :
    (∀ m ∈ [wmA, wv1, wmB], m.id ∈
      getAllVideoIdsDB (storeVideos [wmA, wv1, wmB] emptyDB)) ∧
    (getAllVideoIdsDB (storeVideos [wmA, wv1, wmB] emptyDB)).Nodup :=
  getAllVideoIds_complete_nodup [wmA, wv1, wmB]

/-- Claim C7: with neither a --disease nor a --video-id flag among the
arguments, the run exits with code 1 having started no database, issued no
fetch, and left the store untouched. -/
theorem cli_usage_error_exit (env : FetchEnv) (args : List String)
    (s0 : DBState) (hd : "--disease" ∉ args) (hv : "--video-id" ∉ args) :
    mainRun env args s0 = ⟨1, false, [], [], s0⟩ := by
  obtain ⟨h1, h2⟩ := parseArgs_fields_of_not_mem args emptyOptions hd hv
  have h1' : (parseArgs args emptyOptions).disease = none := h1
  have h2' : (parseArgs args emptyOptions).videoId = none := h2
  unfold mainRun
  simp [h1', h2', truthy]

/-- Witness for C7: an invocation carrying only an --output-file flag. -/
theorem cli_usage_error_exit_witness :
    ("--disease" ∉ ["--output-file", "out.json"]) ∧
    ("--video-id" ∉ ["--output-file", "out.json"]) ∧
    mainRun batchEnv ["--output-file", "out.json"] emptyDB =
      ⟨1, false, [], [], emptyDB⟩ :=
  ⟨by decide, by decide,
   cli_usage_error_exit batchEnv ["--output-file", "out.json"] emptyDB
     (by decide) (by decide)⟩

/-- Claim C8: pool creation makes at most 5 connection attempts; the total
sleep is exactly 2000 ms per attempt after the first; a liveness-validated
connection is obtained exactly when one of the 5 attempts succeeds, and
otherwise the connection error propagates. -/
theorem connectWithRetry_bounded (o : Nat → Bool) :
    (connectWithRetry o).attempts ≤ 5 ∧
    (connectWithRetry o).delayMs = 2000 * ((connectWithRetry o).attempts - 1) ∧
    ((connectWithRetry o).connected = true ↔ ∃ j, j < 5 ∧ o j = true) := by
  have h := connectLoop_spec o 2000 5 0
  refine ⟨h.1, h.2.1, ?_⟩
  show (connectLoop o 2000 0 5).connected = true ↔ ∃ j, j < 5 ∧ o j = true
  rw [h.2.2.1]
  simp

/-- Claim C9: the persisted url column is the canonical watch URL built from
the record's id, and the url field supplied in the input record has no effect
on the stored state. -/
theorem storeVideo_canonical_url (m : VideoMetadata) (u : String)
    (s : DBState) :
    (videoRowOf m).url = "https://youtube.com/watch?v=" ++ m.id ∧
    storeVideoDB { m with url := u } s = storeVideoDB m s :=
  ⟨rfl, rfl⟩

/-- Claim C10 counterexample: invoked with both --disease and --video-id but
with the empty string as the --video-id value, the run issues a keyword
search and performs no detail fetch, because the empty string is falsy where
`options.videoId` is tested (line 49); so the single-video path does not
always take precedence when both flags are supplied. -/
theorem cli_both_flags_cex :
    (mainRun cexEnv ["--disease", "lupus", "--video-id", ""] emptyDB).detailFetchCalls
        = [] ∧
    (mainRun cexEnv ["--disease", "lupus", "--video-id", ""] emptyDB).searchCalls
        = [("lupus", 1000)] := by
  decide

/-- Claim C10 (amended): when both --disease and --video-id are supplied and
the --video-id value is nonempty, the single-video path takes precedence:
exactly one detail fetch of that id is performed and no keyword search is
issued. -/
theorem cli_video_id_precedence (env : FetchEnv) (s0 : DBState) (d v : String)
    (hv : v ≠ "") :
    (mainRun env ["--disease", d, "--video-id", v] s0).detailFetchCalls = [v] ∧
    (mainRun env ["--disease", d, "--video-id", v] s0).searchCalls = [] := by
  have hpa : parseArgs ["--disease", d, "--video-id", v] emptyOptions =
      { emptyOptions with disease := some d, videoId := some v } := rfl
  have ht : truthy (some v) = true := truthy_some_of_ne v hv
  unfold mainRun
  rw [hpa]
  cases hg : env.getVideoDetails v <;> simp [ht, hg]

/-- Witness for C10 (amended): both flags with the nonempty id "vidA". -/
theorem cli_video_id_precedence_witness :
    ("vidA" : String) ≠ "" ∧
    ((mainRun batchEnv ["--disease", "lupus", "--video-id", "vidA"]
        emptyDB).detailFetchCalls = ["vidA"] ∧
      (mainRun batchEnv ["--disease", "lupus", "--video-id", "vidA"]
        emptyDB).searchCalls = []) :=
  ⟨by decide,
   cli_video_id_precedence batchEnv emptyDB "lupus" "vidA" (by decide)⟩
